import Mathlib

/-!
Verification of the peak-tracking core of the `power_max_tracker` integration
(`custom_components/power_max_tracker/coordinator.py`, with the gating helper
from `sensor.py` and the capacity validation from `config_flow.py`).

Python floats are modelled as rationals (`ℚ`): every operation performed on
them by the source (comparison, list sorting, sum, division by constants) is
exact on the values the claims are about. Python `datetime` objects are
modelled by the `DateTime` structure below at second resolution and without a
timezone offset; `datetime.date()` is the (year, month, day) projection.
Python's `sorted(..., reverse=True)` / `list.sort(key=..., reverse=True)` are
stable descending sorts; a stable sort's output is uniquely determined by the
key order and the original order, so they are modelled by `List.insertionSort`
with the corresponding reflexive-total descending relation, which is stable in
the same sense.
-/

namespace PowerMaxTracker

/-- Model of a Python `datetime` at second resolution (naive, no tzinfo). -/
structure DateTime where
  year : Nat
  month : Nat
  day : Nat
  hour : Nat
  minute : Nat
  second : Nat
deriving DecidableEq, Repr

/-- Python `datetime.date()`: the calendar-date projection of a timestamp. -/
def DateTime.date (t : DateTime) : Nat × Nat × Nat := (t.year, t.month, t.day)

/-- The mutable state of `PowerMaxCoordinator` that the claims are about:
`self.max_values`, `self.max_values_timestamps` (a `None` slot is an unfilled
sentinel) and `self.previous_month_max_values` (coordinator.py:91-93). -/
structure CoordState where
  maxValues : List ℚ
  maxValuesTimestamps : List (Option DateTime)
  previousMonthMaxValues : List ℚ
deriving DecidableEq, Repr

/-- Constructor state (coordinator.py:91-93): `self.max_values = [0.0] *
self.num_max_values`, `self.max_values_timestamps = [None] * self.num_max_values`,
`self.previous_month_max_values = []`. The constructor performs no validation of
`num_max_values`; it builds this state for any capacity. -/
def initState (numMaxValues : Nat) : CoordState :=
  ⟨List.replicate numMaxValues 0, List.replicate numMaxValues none, []⟩

/-- Python `sorted(values, reverse=True)`: stable descending sort of floats. -/
def sortDesc (l : List ℚ) : List ℚ :=
  l.insertionSort (fun a b => b ≤ a)

/-- Python `combined_list.sort(key=lambda x: x[0], reverse=True)`: stable descending
sort of (value, timestamp) pairs by value (coordinator.py:419). -/
def sortPairsDesc (l : List (ℚ × Option DateTime)) : List (ℚ × Option DateTime) :=
  l.insertionSort (fun p q => q.1 ≤ p.1)

/-- Python `list.insert(i, a)`: inserts before position `i`, appending when `i`
is past the end. -/
def insertAt : Nat → (Option DateTime) → List (Option DateTime) → List (Option DateTime)
  | 0, a, l => a :: l
  | _ + 1, a, [] => [a]
  | n + 1, a, x :: l => x :: insertAt n a l

/-- The insertion-index search of `_update_hourly_max_values_with_timestamp`
(coordinator.py:394-400): the loop index of the first element of the new sorted
list equal to `new_value` at a position where the old list does not already
hold `new_value`; the Python variable defaults to 0 when the loop never breaks. -/
def insertIndexAux (oldVals : List ℚ) (v : ℚ) : Nat → List ℚ → Option Nat
  | _, [] => none
  | i, val :: rest =>
      if val = v ∧ (oldVals.length ≤ i ∨ ¬ oldVals[i]? = some v) then some i
      else insertIndexAux oldVals v (i + 1) rest

/-- Embeds `_update_hourly_max_values_with_timestamp` (coordinator.py:365-408), the
MULTI_PEAK ledger update. Returns the new state and the `bool` return value. -/
def update_hourly_max_values_with_timestamp (numMaxValues : Nat) (s : CoordState)
    (newValue : ℚ) (timestamp : DateTime) : CoordState × Bool :=
  if newValue ∈ s.maxValues then (s, false)
  else
    let oldMaxValues := s.maxValues
    let newMaxValues := (sortDesc (s.maxValues ++ [newValue])).take numMaxValues
    if newMaxValues = oldMaxValues then (s, false)
    else
      let insertIndex := (insertIndexAux oldMaxValues newValue 0 newMaxValues).getD 0
      let newTimestamps := (insertAt insertIndex (some timestamp) s.maxValuesTimestamps).take numMaxValues
      (⟨newMaxValues, newTimestamps, s.previousMonthMaxValues⟩, true)

/-- Embeds `_sort_and_slice_combined` (coordinator.py:410-424): sort the combined
(value, timestamp) pairs descending by value, slice to capacity, and unzip.
(`zip(*sliced)` on the empty list yields two empty sequences, as the source's
explicit empty check does.) -/
def sort_and_slice_combined (numMaxValues : Nat) (combined : List (ℚ × Option DateTime)) :
    List ℚ × List (Option DateTime) :=
  let sliced := (sortPairsDesc combined).take numMaxValues
  (sliced.map Prod.fst, sliced.map Prod.snd)

/-- The date-matching test of the loop at coordinator.py:445-448:
`if ts and ts.date() == new_date`. -/
def matchesDate (d : Nat × Nat × Nat) : Option DateTime → Bool
  | some u => decide (u.date = d)
  | none => false

/-- The loop at coordinator.py:444-448: index of the first timestamp slot whose
date equals `d`, if any. -/
def findDateIdx (d : Nat × Nat × Nat) : List (Option DateTime) → Option Nat
  | [] => none
  | ts :: rest => if matchesDate d ts then some 0 else (findDateIdx d rest).map (· + 1)

/-- Embeds `_update_daily_max_values_with_timestamp` (coordinator.py:426-481), the
ONE_PER_DAY ledger update. In the replacement branch the source indexes
`self.max_values[existing_date_index]`; the index is in range in every state
with equally long lists (the invariant states), which is what the theorems
assume, so the out-of-range default of `getD` is never exercised. -/
def update_daily_max_values_with_timestamp (numMaxValues : Nat) (s : CoordState)
    (newValue : ℚ) (timestamp : DateTime) : CoordState × Bool :=
  match findDateIdx timestamp.date s.maxValuesTimestamps with
  | some existingDateIndex =>
      if newValue ≤ s.maxValues.getD existingDateIndex 0 then (s, false)
      else
        let vals := s.maxValues.set existingDateIndex newValue
        let tss := s.maxValuesTimestamps.set existingDateIndex (some timestamp)
        let nv := sort_and_slice_combined numMaxValues (vals.zip tss)
        (⟨nv.1, nv.2, s.previousMonthMaxValues⟩, true)
  | none =>
      let combinedValues := s.maxValues ++ [newValue]
      let combinedTimestamps := s.maxValuesTimestamps ++ [some timestamp]
      let nv := sort_and_slice_combined numMaxValues (combinedValues.zip combinedTimestamps)
      if ¬ nv.1 = s.maxValues then (⟨nv.1, nv.2, s.previousMonthMaxValues⟩, true)
      else (s, false)

/-- Embeds `_update_max_values_with_timestamp` (coordinator.py:344-363): dispatch on
`single_peak_per_day`. -/
def update_max_values_with_timestamp (singlePeakPerDay : Bool) (numMaxValues : Nat)
    (s : CoordState) (newValue : ℚ) (timestamp : DateTime) : CoordState × Bool :=
  if singlePeakPerDay then update_daily_max_values_with_timestamp numMaxValues s newValue timestamp
  else update_hourly_max_values_with_timestamp numMaxValues s newValue timestamp

/-- Embeds `_async_reset_monthly` (coordinator.py:632-644): when monthly reset is
enabled and the invocation date is the 1st, snapshot the current values as the
previous month and clear the ledger. The `Bool` records whether a persistence
write (`_save_max_values_data`) happened. -/
def async_reset_monthly (numMaxValues : Nat) (monthlyReset : Bool) (s : CoordState)
    (nowDay : Nat) : CoordState × Bool :=
  if monthlyReset ∧ nowDay = 1 then
    (⟨List.replicate numMaxValues 0, List.replicate numMaxValues none, s.maxValues⟩, true)
  else (s, false)

/-- Embeds `average_max_value` (coordinator.py:317-322): `sum(self.max_values) /
len(self.max_values)` when the list is non-empty (Python truthiness),
else `0.0`. All entries are summed, the `0.0` sentinel slots included. -/
def average_max_value (s : CoordState) : ℚ :=
  if s.maxValues = [] then 0 else s.maxValues.sum / (s.maxValues.length : ℚ)

/-- The `average()` contract as the spec words it (spec.md §4.2): mean of the
values excluding entries ≤ 0, and `0.0` when none qualify. Written from the
spec only, for comparison with `average_max_value`. -/
def average_spec (s : CoordState) : ℚ :=
  let qualifying := s.maxValues.filter (fun v => decide (0 < v))
  if qualifying = [] then 0 else qualifying.sum / (qualifying.length : ℚ)

/-- Embeds `_watts_to_kilowatts` (coordinator.py:333-342): divide by
`WATTS_TO_KILOWATTS = 1000.0`. -/
def watts_to_kilowatts (watts : ℚ) : ℚ := watts / 1000

/-- Embeds `GatedSensorEntity._can_update` (sensor.py:77-82): `True` when no binary
sensor is configured; otherwise the gate entity's state must exist and be
exactly `"on"`. The first argument models `self._binary_sensor`
(`none` = not configured), the second the result of
`hass.states.get(self._binary_sensor)` (`none` = entity missing). -/
def can_update (binarySensor : Option String) (gateState : Option String) : Bool :=
  match binarySensor with
  | none => true
  | some _ =>
      match gateState with
      | none => false
      | some st => st = "on"

/-- Outcome of one `_async_update_period` call: the resulting coordinator
state, whether `_update_max_values_with_timestamp` was invoked (`offered`), and
whether `_save_max_values_data` was invoked (`saved`). -/
structure UpdateResult where
  state : CoordState
  offered : Bool
  saved : Bool
deriving DecidableEq, Repr

/-- Embeds `_async_update_period` (coordinator.py:549-577). `sourceSet` models
`self.source_sensor_entity_id` being resolved; `periodAvgWatts` models the
value returned by `_query_period_statistics` for the previous completed cycle
(`none` when no mean statistic was found, coordinator.py:509-520). The
function offers the converted sample whenever the mean is present and
non-negative; no binary-sensor gate is consulted anywhere on this path, so the
gate state is not even an input. -/
def async_update_period (singlePeakPerDay : Bool) (numMaxValues : Nat)
    (sourceSet : Bool) (s : CoordState) (periodAvgWatts : Option ℚ)
    (now : DateTime) : UpdateResult :=
  if ¬ sourceSet then ⟨s, false, false⟩
  else
    match periodAvgWatts with
    | none => ⟨s, false, false⟩
    | some w =>
        if 0 ≤ w then
          let periodAvgKw := watts_to_kilowatts w
          let r := update_max_values_with_timestamp singlePeakPerDay numMaxValues s periodAvgKw now
          if r.2 then ⟨r.1, true, true⟩ else ⟨r.1, true, false⟩
        else ⟨s, false, false⟩

/-- Outcome of one `_update_max_values_from_range` call: the resulting state,
the statistics query windows issued in order (as second offsets), and the
number of `_save_max_values_data` calls. -/
structure BackfillResult where
  state : CoordState
  queried : List (Int × Int)
  saves : Nat
deriving Repr

/-- One backfill loop iteration (coordinator.py:534-544): query the sub-window,
and offer the converted sample when the mean is present and non-negative. The
timestamp passed to the ledger is `cycle_end`, mapped to a datetime by `tsOf`. -/
def backfillStep (singlePeakPerDay : Bool) (numMaxValues : Nat) (stats : Int → Int → Option ℚ)
    (tsOf : Int → DateTime) (s : CoordState) (w : Int × Int) : CoordState :=
  match stats w.1 w.2 with
  | some cycleAvgWatts =>
      if 0 ≤ cycleAvgWatts then
        (update_max_values_with_timestamp singlePeakPerDay numMaxValues s
          (watts_to_kilowatts cycleAvgWatts) (tsOf w.2)).1
      else s
  | none => s

/-- The sub-windows the backfill loop iterates over (coordinator.py:534-536):
`[start + k*Δ, start + (k+1)*Δ)` for `k < cycles`. -/
def backfillWindows (startSec : Int) (secondsPerCycle : Int) (cycles : Nat) : List (Int × Int) :=
  (List.range cycles).map
    (fun cycle : Nat =>
      (startSec + (cycle : Int) * secondsPerCycle,
        startSec + (cycle : Int) * secondsPerCycle + secondsPerCycle))

/-- Embeds `_update_max_values_from_range` (coordinator.py:522-547). Time instants are
modelled as second offsets (`Int`); `(end_time - start_time).total_seconds() //
self.seconds_per_cycle` is Python floor division, i.e. `Int.fdiv`, and
`range(cycles)` is empty unless `cycles` is positive (`Int.toNat`). `stats`
models `_query_period_statistics` as a function of the window, `tsOf` maps a
second offset to the datetime handed to the ledger. When `cycles == 0` the
source returns early: nothing is queried and nothing is saved, although the
`reset_max` clearing has already happened in memory. -/
def update_max_values_from_range (singlePeakPerDay : Bool) (numMaxValues : Nat)
    (secondsPerCycle : Int) (stats : Int → Int → Option ℚ) (tsOf : Int → DateTime)
    (s : CoordState) (startSec endSec : Int) (resetMax : Bool) : BackfillResult :=
  let s0 := if resetMax then
      ⟨List.replicate numMaxValues 0, List.replicate numMaxValues none, s.previousMonthMaxValues⟩
    else s
  let cycles := (endSec - startSec).fdiv secondsPerCycle
  if cycles = 0 then ⟨s0, [], 0⟩
  else
    let windows := backfillWindows startSec secondsPerCycle cycles.toNat
    ⟨windows.foldl (backfillStep singlePeakPerDay numMaxValues stats tsOf) s0, windows, 1⟩

/-- Embeds `_validate_num_max_values` (config_flow.py:138-141): the configured
capacity is accepted exactly when `1 <= num_max <= 10`. This check lives in
the config flow, before any coordinator is constructed. -/
def validate_num_max_values (numMax : Int) : Bool :=
  decide (1 ≤ numMax) && decide (numMax ≤ 10)

/-- The decimal digit character for `n < 10`. -/
def digitChar (n : Nat) : Char := Char.ofNat (48 + n)

/-- Zero-padded two-digit decimal rendering, as Python `%02d` for `n < 100`. -/
def render2 (n : Nat) : List Char := [digitChar (n / 10), digitChar (n % 10)]

/-- Zero-padded four-digit decimal rendering, as Python `%04d` for `n < 10000`. -/
def render4 (n : Nat) : List Char :=
  [digitChar (n / 1000), digitChar (n / 100 % 10), digitChar (n / 10 % 10), digitChar (n % 10)]

/-- Python `datetime.isoformat()` for a naive datetime with zero microseconds:
`YYYY-MM-DDTHH:MM:SS`. This is the string the storage JSON encoder writes for
a timestamp slot. -/
def DateTime.isoformat (t : DateTime) : String :=
  ⟨render4 t.year ++ '-' ::
    (render2 t.month ++ '-' ::
      (render2 t.day ++ 'T' ::
        (render2 t.hour ++ ':' ::
          (render2 t.minute ++ ':' :: render2 t.second))))⟩

/-- Numeric value of a decimal digit character. -/
def digitVal (c : Char) : Nat := c.toNat - 48

/-- Value of a two-digit group. -/
def val2 (a b : Char) : Nat := digitVal a * 10 + digitVal b

/-- Value of a four-digit group. -/
def val4 (a b c d : Char) : Nat :=
  digitVal a * 1000 + digitVal b * 100 + digitVal c * 10 + digitVal d

/-- Embeds `dt_util.parse_datetime` restricted to the shape this integration writes
(`YYYY-MM-DDTHH:MM:SS`): accept exactly a 19-character string with digit groups
separated by `-`, `-`, `T`, `:`, `:`, and return `none` on anything else
(the loader then leaves the slot unfilled). -/
def parse_datetime (s : String) : Option DateTime :=
  match s.data with
  | [a, b, c, d, p, e, f, q, g, h, r, i, j, u, k, l, v, m, n] =>
      if (p = '-' ∧ q = '-' ∧ r = 'T' ∧ u = ':' ∧ v = ':') ∧
          ([a, b, c, d, e, f, g, h, i, j, k, l, m, n].all Char.isDigit) then
        some ⟨val4 a b c d, val2 e f, val2 g h, val2 i j, val2 k l, val2 m n⟩
      else none
  | _ => none

/-- The persisted record (coordinator.py:290-294, spec.md §6): `max_values`,
`max_values_timestamps` as ISO-8601 strings or null, and
`previous_month_max_values`. -/
structure StoredData where
  maxValues : List ℚ
  maxValuesTimestamps : List (Option String)
  previousMonthMaxValues : List ℚ
deriving DecidableEq, Repr

/-- Embeds `_save_max_values_data` (coordinator.py:288-295): the record handed to the
store; the store's JSON encoder writes each datetime as its `isoformat()`
string and keeps `None` slots as null. -/
def save_max_values_data (s : CoordState) : StoredData :=
  ⟨s.maxValues, s.maxValuesTimestamps.map (Option.map DateTime.isoformat),
    s.previousMonthMaxValues⟩

/-- The load path of `async_setup` (coordinator.py:243-256): when a stored
record exists, take its values, parse each timestamp string back to a datetime
(`None` slots stay `None`, unparseable strings become `None`), and take its
previous-month snapshot; with no stored record the state is left as
constructed. -/
def load_stored_data (s : CoordState) (stored : Option StoredData) : CoordState :=
  match stored with
  | none => s
  | some d =>
      ⟨d.maxValues, d.maxValuesTimestamps.map (fun ts => ts.bind parse_datetime),
        d.previousMonthMaxValues⟩

/-- Field bounds under which `isoformat` is the honest fixed-width rendering:
every real datetime satisfies them (Python years are at most 9999 and the
remaining fields are at most two digits). -/
def ValidDT (t : DateTime) : Prop :=
  t.year < 10000 ∧ t.month < 100 ∧ t.day < 100 ∧ t.hour < 100 ∧
    t.minute < 100 ∧ t.second < 100

instance (t : DateTime) : Decidable (ValidDT t) := by
  unfold ValidDT; infer_instance

/-! ## Infrastructure lemmas about the sorting and list helpers -/

instance : IsTotal ℚ (fun a b => b ≤ a) := ⟨fun a b => le_total b a⟩

instance : IsTrans ℚ (fun a b => b ≤ a) :=
  ⟨fun _ _ _ h h2 => le_trans h2 h⟩

instance : IsTotal (ℚ × Option DateTime) (fun p q => q.1 ≤ p.1) :=
  ⟨fun a b => le_total b.1 a.1⟩

instance : IsTrans (ℚ × Option DateTime) (fun p q => q.1 ≤ p.1) :=
  ⟨fun _ _ _ h h2 => le_trans h2 h⟩

theorem sortDesc_pairwise (l : List ℚ) : (sortDesc l).Pairwise (fun a b => b ≤ a) :=
  List.sorted_insertionSort _ l

theorem sortDesc_perm (l : List ℚ) : (sortDesc l).Perm l :=
  List.perm_insertionSort _ l

theorem sortPairsDesc_pairwise (l : List (ℚ × Option DateTime)) :
    (sortPairsDesc l).Pairwise (fun p q => q.1 ≤ p.1) :=
  List.sorted_insertionSort _ l

theorem sortPairsDesc_perm (l : List (ℚ × Option DateTime)) : (sortPairsDesc l).Perm l :=
  List.perm_insertionSort _ l

theorem length_sortDesc (l : List ℚ) : (sortDesc l).length = l.length :=
  (sortDesc_perm l).length_eq

theorem length_sortPairsDesc (l : List (ℚ × Option DateTime)) :
    (sortPairsDesc l).length = l.length :=
  (sortPairsDesc_perm l).length_eq

theorem insertAt_length (i : Nat) (a : Option DateTime) (l : List (Option DateTime)) :
    (insertAt i a l).length = l.length + 1 := by
  induction l generalizing i with
  | nil => cases i <;> simp [insertAt]
  | cons x xs ih =>
      cases i with
      | zero => simp [insertAt]
      | succ j => simp [insertAt, ih j]

theorem zip_map_fst_snd {α β : Type} (l : List (α × β)) :
    (l.map Prod.fst).zip (l.map Prod.snd) = l := by
  induction l with
  | nil => rfl
  | cons p ps ih => simp [ih]

theorem zip_set {α β : Type} (l₁ : List α) (l₂ : List β) (i : Nat) (a : α) (b : β)
    (h : l₁.length = l₂.length) :
    (l₁.set i a).zip (l₂.set i b) = (l₁.zip l₂).set i (a, b) := by
  induction l₁ generalizing l₂ i with
  | nil =>
      cases l₂ with
      | nil => simp
      | cons y ys => simp at h
  | cons x xs ih =>
      cases l₂ with
      | nil => simp at h
      | cons y ys =>
          cases i with
          | zero => simp
          | succ j =>
              simp only [List.set, List.zip_cons_cons]
              simp only [List.length_cons, Nat.succ_inj] at h
              rw [ih ys j h]
              rfl

/-! ## C5 / C10 helper: the duplicate-value early return (coordinator.py:377-379) -/

theorem update_hourly_mem_eq (N : Nat) (s : CoordState) (v : ℚ) (t : DateTime)
    (h : v ∈ s.maxValues) :
    update_hourly_max_values_with_timestamp N s v t = (s, false) := by
  simp [update_hourly_max_values_with_timestamp, h]

/-! ## Claim theorems: the simpler claims -/

/-- C1: the claim (and the repo's own tests, tests/test_coordinator.py:143-155)
say `average()` excludes entries ≤ 0, but `average_max_value`
(coordinator.py:317-322) divides the sum of all slots by the full length. At
the ledger `[10.0, 0.0, 5.0]` the code returns 5.0 while the claimed
sentinel-excluding mean is 7.5. -/
theorem C1_average_counterexample_eval :
    average_max_value ⟨[10, 0, 5], [none, none, none], []⟩ = 5 ∧
    average_spec ⟨[10, 0, 5], [none, none, none], []⟩ = 15 / 2 ∧
    ((5 : ℚ) = 15 / 2 → False) := by
  refine ⟨?_, ?_, by norm_num⟩
  · norm_num [average_max_value, List.cons_ne_nil]
  · norm_num [average_spec, List.filter, List.cons_ne_nil]

/-- C2: the claim says the periodic update offers a validated sample only when
the gate state is exactly `"on"`, and `_can_update` (sensor.py:77-82) indeed
implements that test; but `_async_update_period` (coordinator.py:549-577) never
consults the gate — despite its own docstring "update max values if binary
sensor allows" — so with a configured gate whose state is `"unavailable"` (or
`"off"`) a positive mean is still offered, committed and saved. -/
theorem C2_gate_ignored_eval :
    can_update none none = true ∧
    can_update (some "binary_sensor.gate") (some "on") = true ∧
    can_update (some "binary_sensor.gate") (some "unavailable") = false ∧
    can_update (some "binary_sensor.gate") none = false ∧
    async_update_period false 2 true (initState 2) (some 3000) ⟨2025, 12, 9, 10, 1, 0⟩ =
      ⟨⟨[3, 0], [some ⟨2025, 12, 9, 10, 1, 0⟩, none], []⟩, true, true⟩ := by
  refine ⟨rfl, by decide, by decide, rfl, ?_⟩
  norm_num [async_update_period, watts_to_kilowatts, update_max_values_with_timestamp,
    update_hourly_max_values_with_timestamp, initState, sortDesc, List.insertionSort,
    List.orderedInsert, insertIndexAux, insertAt, List.replicate, List.cons_ne_nil]

/-- C5: in MULTI_PEAK mode, offering a value already present anywhere in
`max_values` returns `False` and leaves both lists unchanged
(coordinator.py:377-379). -/
theorem C5_duplicate_value_rejected (N : Nat) (s : CoordState) (v : ℚ) (t : DateTime)
    (h : v ∈ s.maxValues) :
    update_hourly_max_values_with_timestamp N s v t = (s, false) :=
  update_hourly_mem_eq N s v t h

/-- C5 witness at a concrete populated ledger. -/
theorem C5_witness :
    update_hourly_max_values_with_timestamp 2
      ⟨[5, 3], [some ⟨2025, 12, 9, 10, 0, 0⟩, some ⟨2025, 12, 9, 11, 0, 0⟩], []⟩ 5
      ⟨2025, 12, 9, 12, 0, 0⟩ =
    (⟨[5, 3], [some ⟨2025, 12, 9, 10, 0, 0⟩, some ⟨2025, 12, 9, 11, 0, 0⟩], []⟩, false) :=
  C5_duplicate_value_rejected 2 _ 5 _ (by decide)

/-- C10: in MULTI_PEAK mode the `0.0` sentinel of an unfilled slot is
indistinguishable from a genuine zero sample under the duplicate check
(coordinator.py:377-379): whenever `0.0` is present — as it is in the freshly
constructed ledger (coordinator.py:91) — `offer(0.0, t)` returns `False` and
changes nothing, so a zero-mean cycle can never populate an empty slot. -/
theorem C10_zero_sentinel_blocks_zero_sample (N : Nat) (s : CoordState) (t : DateTime)
    (h : (0 : ℚ) ∈ s.maxValues) :
    update_hourly_max_values_with_timestamp N s 0 t = (s, false) :=
  update_hourly_mem_eq N s 0 t h

/-- C10 witness on the freshly constructed two-slot ledger. -/
theorem C10_witness :
    update_hourly_max_values_with_timestamp 2 (initState 2) 0 ⟨2025, 12, 9, 10, 0, 0⟩ =
      (initState 2, false) :=
  C10_zero_sentinel_blocks_zero_sample 2 (initState 2) ⟨2025, 12, 9, 10, 0, 0⟩ (by decide)

/-- C7: a periodic update whose statistics query yields no mean (`None`) or a
negative mean never reaches the ledger update and never writes the store
(coordinator.py:561-577); the modelled code path is a total function, so no
exception is possible. -/
theorem C7_null_or_negative_mean_is_noop (mode : Bool) (N : Nat) (s : CoordState)
    (now : DateTime) (m : Option ℚ) (hm : m = none ∨ ∃ w, m = some w ∧ w < 0) :
    async_update_period mode N true s m now = ⟨s, false, false⟩ := by
  rcases hm with h | ⟨w, h, hw⟩ <;> subst h
  · simp [async_update_period]
  · simp [async_update_period, hw.not_le]

/-- C7 witness at the spec's `mean = -5` example. -/
theorem C7_witness :
    async_update_period false 2 true (initState 2) (some (-5)) ⟨2025, 1, 1, 10, 1, 0⟩ =
      ⟨initState 2, false, false⟩ :=
  C7_null_or_negative_mean_is_noop false 2 (initState 2) ⟨2025, 1, 1, 10, 1, 0⟩
    (some (-5)) (Or.inr ⟨-5, rfl, by norm_num⟩)

/-- C9: the claim places the capacity check in the coordinator constructor,
but `PowerMaxCoordinator.__init__` (coordinator.py:40-99) performs no
validation: at capacity 11 it silently proceeds and builds an 11-slot ledger,
while the config-flow validator is what rejects 11. -/
theorem C9_counterexample :
    (initState 11).maxValues.length = 11 ∧
    (initState 11).maxValuesTimestamps.length = 11 ∧
    validate_num_max_values 11 = false := by
  refine ⟨by decide, by decide, by decide⟩

/-- C9 (amended): capacity outside 1..10 is rejected by the config-flow
validation step `_validate_num_max_values` (config_flow.py:138-141) before an
entry is created, while the coordinator constructor itself accepts any
capacity and builds a ledger of exactly that many slots
(coordinator.py:91-92). -/
theorem C9_capacity_validated_in_config_flow :
    (∀ n : Int, validate_num_max_values n = true ↔ 1 ≤ n ∧ n ≤ 10) ∧
    (∀ n : Nat, (initState n).maxValues.length = n ∧
      (initState n).maxValuesTimestamps.length = n) := by
  constructor
  · intro n; simp [validate_num_max_values]
  · intro n; simp [initState]

/-- C6: the claim says every backfill call persists the ledger exactly once at
the end, but when the range holds no whole cycle (`cycles == 0`,
coordinator.py:531-532) the source returns before the final
`_save_max_values_data`: over a 1800-second range with 3600-second cycles and
the reset flag set, the ledger has been cleared in memory yet zero persistence
writes occur. -/
theorem C6_counterexample :
    (update_max_values_from_range false 2 3600 (fun _ _ => none)
        (fun _ => ⟨2025, 1, 1, 0, 0, 0⟩) (initState 2) 0 1800 true).saves = 0 ∧
    ¬ (update_max_values_from_range false 2 3600 (fun _ _ => none)
        (fun _ => ⟨2025, 1, 1, 0, 0, 0⟩) (initState 2) 0 1800 true).saves = 1 := by
  refine ⟨by decide, by decide⟩

/-- C6 (amended): a backfill over `[range_start, range_end)` queries exactly
`floor((range_end - range_start) / cycle_duration)` whole cycle-sized
sub-windows, consecutively and in chronological order starting at
`range_start` (any trailing remainder dropped); the reset flag is equivalent
to starting the same run from a freshly cleared ledger; and the ledger is
persisted exactly once at the end when at least one whole cycle fits, and not
at all otherwise (the `cycles == 0` early return). -/
theorem C6_backfill_floor_windows_and_single_save (mode : Bool) (N : Nat) (d : Int)
    (stats : Int → Int → Option ℚ) (tsOf : Int → DateTime) (s : CoordState)
    (a b : Int) (resetMax : Bool) :
    (update_max_values_from_range mode N d stats tsOf s a b resetMax).queried.length
        = ((b - a).fdiv d).toNat ∧
    (∀ k : Nat, (update_max_values_from_range mode N d stats tsOf s a b resetMax).queried[k]?
        = if k < ((b - a).fdiv d).toNat then some (a + k * d, a + k * d + d) else none) ∧
    (update_max_values_from_range mode N d stats tsOf s a b resetMax).saves
        = (if (b - a).fdiv d = 0 then 0 else 1) ∧
    (resetMax = true →
      (update_max_values_from_range mode N d stats tsOf s a b resetMax).state =
        (update_max_values_from_range mode N d stats tsOf
          ⟨List.replicate N 0, List.replicate N none, s.previousMonthMaxValues⟩
          a b false).state) := by
  by_cases h0 : (b - a).fdiv d = 0
  · refine ⟨?_, ?_, ?_, ?_⟩
    · simp [update_max_values_from_range, h0]
    · intro k; simp [update_max_values_from_range, h0]
    · simp [update_max_values_from_range, h0]
    · intro hr; subst hr; simp [update_max_values_from_range, h0]
  · refine ⟨?_, ?_, ?_, ?_⟩
    · simp only [update_max_values_from_range, backfillWindows]
      rw [if_neg h0]
      simp only [List.length_map, List.length_range]
    · intro k
      simp only [update_max_values_from_range, backfillWindows]
      rw [if_neg h0]
      simp only [List.getElem?_map]
      by_cases hk : k < ((b - a).fdiv d).toNat
      · rw [List.getElem?_range hk, if_pos hk]
        rfl
      · rw [if_neg hk, List.getElem?_eq_none (by simpa using Nat.not_lt.mp hk)]
        rfl
    · simp [update_max_values_from_range, h0]
    · intro hr; subst hr; simp [update_max_values_from_range, h0]

/-- C6 witness: a two-cycle range with the reset flag set is saved once and
equals the run started from the cleared ledger. -/
theorem C6_witness :
    (update_max_values_from_range false 2 3600 (fun _ _ => some 2000)
        (fun _ => ⟨2025, 1, 2, 0, 0, 0⟩) (initState 2) 0 7200 true).saves = 1 ∧
    (update_max_values_from_range false 2 3600 (fun _ _ => some 2000)
        (fun _ => ⟨2025, 1, 2, 0, 0, 0⟩) (initState 2) 0 7200 true).state =
      (update_max_values_from_range false 2 3600 (fun _ _ => some 2000)
        (fun _ => ⟨2025, 1, 2, 0, 0, 0⟩)
        ⟨List.replicate 2 0, List.replicate 2 none, []⟩ 0 7200 false).state := by
  have h := C6_backfill_floor_windows_and_single_save false 2 3600 (fun _ _ => some 2000)
    (fun _ => ⟨2025, 1, 2, 0, 0, 0⟩) (initState 2) 0 7200 true
  refine ⟨?_, h.2.2.2 rfl⟩
  rw [h.2.2.1]
  decide

/-! ## C3: the ledger invariants under arbitrary offer / reset sequences -/

/-- One ledger-mutating operation of the accounting layer: an offered sample or
the monthly reset (coordinator.py:344-363 and 632-644). -/
inductive LedgerOp where
  | offer (value : ℚ) (timestamp : DateTime)
  | reset
deriving Repr

/-- Apply one operation: offers go through the mode dispatcher, reset through
`_async_reset_monthly` on the 1st with monthly reset enabled. -/
def applyLedgerOp (mode : Bool) (N : Nat) (s : CoordState) : LedgerOp → CoordState
  | LedgerOp.offer v t => (update_max_values_with_timestamp mode N s v t).1
  | LedgerOp.reset => (async_reset_monthly N true s 1).1

/-- The invariant of the claim: both lists have length `N` and the values are
sorted descending. -/
def Inv (N : Nat) (s : CoordState) : Prop :=
  s.maxValues.length = N ∧ s.maxValuesTimestamps.length = N ∧
    s.maxValues.Pairwise (fun a b => b ≤ a)

theorem inv_initState (N : Nat) : Inv N (initState N) := by
  refine ⟨by simp [initState], by simp [initState], ?_⟩
  simp [initState, List.pairwise_replicate]

theorem sort_and_slice_combined_fst_length (N : Nat) (combined : List (ℚ × Option DateTime)) :
    (sort_and_slice_combined N combined).1.length = min N combined.length := by
  simp [sort_and_slice_combined, length_sortPairsDesc]

theorem sort_and_slice_combined_snd_length (N : Nat) (combined : List (ℚ × Option DateTime)) :
    (sort_and_slice_combined N combined).2.length = min N combined.length := by
  simp [sort_and_slice_combined, length_sortPairsDesc]

theorem sort_and_slice_combined_fst_pairwise (N : Nat) (combined : List (ℚ × Option DateTime)) :
    (sort_and_slice_combined N combined).1.Pairwise (fun a b => b ≤ a) := by
  simp only [sort_and_slice_combined]
  rw [List.pairwise_map]
  exact List.Pairwise.sublist (List.take_sublist _ _) (sortPairsDesc_pairwise _)

theorem inv_update_hourly (N : Nat) (s : CoordState) (v : ℚ) (t : DateTime) (h : Inv N s) :
    Inv N (update_hourly_max_values_with_timestamp N s v t).1 := by
  obtain ⟨h1, h2, h3⟩ := h
  by_cases hmem : v ∈ s.maxValues
  · simp only [update_hourly_max_values_with_timestamp, if_pos hmem]
    exact ⟨h1, h2, h3⟩
  · by_cases heq : (sortDesc (s.maxValues ++ [v])).take N = s.maxValues
    · simp only [update_hourly_max_values_with_timestamp, if_neg hmem, if_pos heq]
      exact ⟨h1, h2, h3⟩
    · simp only [update_hourly_max_values_with_timestamp, if_neg hmem, if_neg heq]
      refine ⟨?_, ?_, ?_⟩
      · simp only [List.length_take, length_sortDesc, List.length_append,
          List.length_singleton, h1]
        omega
      · simp only [List.length_take, insertAt_length, h2]
        omega
      · exact List.Pairwise.sublist (List.take_sublist _ _) (sortDesc_pairwise _)

theorem inv_update_daily (N : Nat) (s : CoordState) (v : ℚ) (t : DateTime) (h : Inv N s) :
    Inv N (update_daily_max_values_with_timestamp N s v t).1 := by
  obtain ⟨h1, h2, h3⟩ := h
  rcases hfind : findDateIdx t.date s.maxValuesTimestamps with _ | i
  · by_cases hch :
        ¬ (sort_and_slice_combined N
            ((s.maxValues ++ [v]).zip (s.maxValuesTimestamps ++ [some t]))).1 = s.maxValues
    · simp only [update_daily_max_values_with_timestamp, hfind, if_pos hch]
      refine ⟨?_, ?_, sort_and_slice_combined_fst_pairwise _ _⟩
      · rw [sort_and_slice_combined_fst_length]
        simp only [List.length_zip, List.length_append, List.length_singleton, h1, h2]
        omega
      · rw [sort_and_slice_combined_snd_length]
        simp only [List.length_zip, List.length_append, List.length_singleton, h1, h2]
        omega
    · simp only [update_daily_max_values_with_timestamp, hfind, if_neg hch]
      exact ⟨h1, h2, h3⟩
  · by_cases hle : v ≤ s.maxValues.getD i 0
    · simp only [update_daily_max_values_with_timestamp, hfind, if_pos hle]
      exact ⟨h1, h2, h3⟩
    · simp only [update_daily_max_values_with_timestamp, hfind, if_neg hle]
      refine ⟨?_, ?_, sort_and_slice_combined_fst_pairwise _ _⟩
      · rw [sort_and_slice_combined_fst_length]
        simp only [List.length_zip, List.length_set, h1, h2]
        omega
      · rw [sort_and_slice_combined_snd_length]
        simp only [List.length_zip, List.length_set, h1, h2]
        omega

theorem inv_update_dispatch (mode : Bool) (N : Nat) (s : CoordState) (v : ℚ) (t : DateTime)
    (h : Inv N s) :
    Inv N (update_max_values_with_timestamp mode N s v t).1 := by
  cases mode with
  | false =>
      simpa only [update_max_values_with_timestamp, Bool.false_eq_true, if_false] using
        inv_update_hourly N s v t h
  | true =>
      simpa only [update_max_values_with_timestamp, if_true] using
        inv_update_daily N s v t h

theorem inv_reset (N : Nat) (monthlyReset : Bool) (s : CoordState) (day : Nat)
    (h : Inv N s) :
    Inv N (async_reset_monthly N monthlyReset s day).1 := by
  by_cases hc : monthlyReset = true ∧ day = 1
  · simp only [async_reset_monthly, if_pos hc]
    refine ⟨by simp, by simp, by simp [List.pairwise_replicate]⟩
  · simp only [async_reset_monthly, if_neg hc]
    exact h

/-- C3: from a freshly constructed ledger of capacity `N`, after any sequence
of offers and monthly resets — in either mode — the values remain sorted in
descending order and both lists keep length `N`
(coordinator.py:365-408, 426-481, 632-644). -/
theorem C3_sorted_and_capacity_invariant (mode : Bool) (N : Nat) (ops : List LedgerOp) :
    (ops.foldl (applyLedgerOp mode N) (initState N)).maxValues.length = N ∧
    (ops.foldl (applyLedgerOp mode N) (initState N)).maxValuesTimestamps.length = N ∧
    (ops.foldl (applyLedgerOp mode N) (initState N)).maxValues.Pairwise
      (fun a b => b ≤ a) := by
  have main : ∀ (l : List LedgerOp) (s : CoordState), Inv N s →
      Inv N (l.foldl (applyLedgerOp mode N) s) := by
    intro l
    induction l with
    | nil => intro s hs; exact hs
    | cons op rest ih =>
        intro s hs
        apply ih
        cases op with
        | offer v t => exact inv_update_dispatch mode N s v t hs
        | reset => exact inv_reset N true s 1 hs
  exact main ops (initState N) (inv_initState N)

/-! ## C4: ONE_PER_DAY semantics and the one-slot-per-date invariant -/

/-- Two timestamp slots carry distinct calendar dates (vacuously true when
either slot is unfilled). -/
def dateDistinct : Option DateTime → Option DateTime → Prop
  | some u, some w => ¬ u.date = w.date
  | _, _ => True

instance (a b : Option DateTime) : Decidable (dateDistinct a b) :=
  match a, b with
  | some u, some w => inferInstanceAs (Decidable (¬ u.date = w.date))
  | some _, none => isTrue trivial
  | none, _ => isTrue trivial

theorem dateDistinct_symm {a b : Option DateTime} (h : dateDistinct a b) :
    dateDistinct b a := by
  cases a with
  | none =>
      cases b with
      | none => trivial
      | some w => trivial
  | some u =>
      cases b with
      | none => trivial
      | some w => exact fun e => h e.symm

/-- At most one populated timestamp slot per calendar date. -/
def NodupDates (tss : List (Option DateTime)) : Prop :=
  tss.Pairwise dateDistinct

instance (tss : List (Option DateTime)) : Decidable (NodupDates tss) :=
  inferInstanceAs (Decidable (tss.Pairwise dateDistinct))

theorem findDateIdx_none_iff (d : Nat × Nat × Nat) (tss : List (Option DateTime)) :
    findDateIdx d tss = none ↔ ∀ ts ∈ tss, matchesDate d ts = false := by
  induction tss with
  | nil => simp [findDateIdx]
  | cons x xs ih =>
      by_cases hx : matchesDate d x = true
      · simp [findDateIdx, hx]
      · simp only [Bool.not_eq_true] at hx
        simp [findDateIdx, hx, ih]

theorem findDateIdx_some_of (d : Nat × Nat × Nat) (tss : List (Option DateTime))
    (i : Nat) (u : DateTime) (hi : tss[i]? = some (some u)) (hd : u.date = d)
    (hbefore : ∀ j w, j < i → tss[j]? = some w → matchesDate d w = false) :
    findDateIdx d tss = some i := by
  induction tss generalizing i with
  | nil => simp at hi
  | cons x xs ih =>
      cases i with
      | zero =>
          simp only [List.getElem?_cons_zero, Option.some_inj] at hi
          subst hi
          simp [findDateIdx, matchesDate, hd]
      | succ j =>
          have hx : matchesDate d x = false := hbefore 0 x (Nat.succ_pos j) (by simp)
          rw [findDateIdx, if_neg (by simp [hx])]
          rw [ih j (by simpa using hi)
            (fun k w hk hw => hbefore (k + 1) w (by omega) (by simpa using hw))]
          rfl

theorem findDateIdx_some_inv (d : Nat × Nat × Nat) (tss : List (Option DateTime))
    (i : Nat) (h : findDateIdx d tss = some i) :
    ∃ u : DateTime, tss[i]? = some (some u) ∧ u.date = d := by
  induction tss generalizing i with
  | nil => simp [findDateIdx] at h
  | cons x xs ih =>
      by_cases hx : matchesDate d x = true
      · rw [findDateIdx, if_pos hx] at h
        cases x with
        | none => simp [matchesDate] at hx
        | some u =>
            simp only [Option.some_inj] at h
            subst h
            simp only [matchesDate, decide_eq_true_eq] at hx
            exact ⟨u, by simp, hx⟩
      · rw [findDateIdx, if_neg hx] at h
        rcases ho : findDateIdx d xs with _ | j
        · rw [ho] at h; simp at h
        · rw [ho] at h
          simp at h
          subst h
          obtain ⟨u, hu, hud⟩ := ih j ho
          exact ⟨u, by simpa using hu, hud⟩

theorem nodupDates_set (tss : List (Option DateTime)) (i : Nat) (u t : DateTime)
    (h : NodupDates tss) (hi : tss[i]? = some (some u)) (hd : u.date = t.date) :
    NodupDates (tss.set i (some t)) := by
  obtain ⟨hilt, higet⟩ := List.getElem?_eq_some_iff.mp hi
  rw [NodupDates, List.pairwise_iff_getElem] at h ⊢
  intro j k hj hk hjk
  rw [List.length_set] at hj hk
  rw [List.getElem_set, List.getElem_set]
  by_cases hji : i = j <;> by_cases hki : i = k
  · omega
  · rw [if_pos hji, if_neg hki]
    subst hji
    have horig := h i k hj hk hjk
    rw [higet] at horig
    cases hc : tss[k] with
    | none => trivial
    | some w =>
        rw [hc] at horig
        exact fun e => horig (hd.trans e)
  · rw [if_neg hji, if_pos hki]
    subst hki
    have horig := h j i hj hk hjk
    rw [higet] at horig
    cases hc : tss[j] with
    | none => trivial
    | some w =>
        rw [hc] at horig
        exact fun e => horig (e.trans hd.symm)
  · rw [if_neg hji, if_neg hki]
    exact h j k hj hk hjk

theorem nodupDates_append_singleton (tss : List (Option DateTime)) (t : DateTime)
    (h : NodupDates tss) (hnone : ∀ ts ∈ tss, matchesDate t.date ts = false) :
    NodupDates (tss ++ [some t]) := by
  rw [NodupDates, List.pairwise_append]
  refine ⟨h, List.pairwise_singleton _ _, ?_⟩
  intro a ha b hb
  simp only [List.mem_singleton] at hb
  subst hb
  cases a with
  | none => trivial
  | some w =>
      have := hnone (some w) ha
      simp only [matchesDate, decide_eq_false_iff_not] at this
      exact this

theorem pairwise_snd_of_zip (l₁ : List ℚ) (l₂ : List (Option DateTime))
    (hlen : l₂.length ≤ l₁.length) (h : NodupDates l₂) :
    List.Pairwise (fun p q : ℚ × Option DateTime => dateDistinct p.2 q.2) (l₁.zip l₂) := by
  have hm : (l₁.zip l₂).map Prod.snd = l₂ := List.map_snd_zip l₁ l₂ hlen
  rw [NodupDates, ← hm, List.pairwise_map] at h
  exact h

theorem nodupDates_sort_slice (N : Nat) (combined : List (ℚ × Option DateTime))
    (h : List.Pairwise (fun p q : ℚ × Option DateTime => dateDistinct p.2 q.2) combined) :
    NodupDates (sort_and_slice_combined N combined).2 := by
  simp only [sort_and_slice_combined, NodupDates]
  rw [List.pairwise_map]
  refine List.Pairwise.sublist (List.take_sublist _ _) ?_
  exact ((sortPairsDesc_perm combined).pairwise_iff
    (fun hxy => dateDistinct_symm hxy)).mpr h

theorem nodupDates_update_daily (N : Nat) (s : CoordState) (v : ℚ) (t : DateTime)
    (hlen : s.maxValues.length = s.maxValuesTimestamps.length)
    (h : NodupDates s.maxValuesTimestamps) :
    NodupDates (update_daily_max_values_with_timestamp N s v t).1.maxValuesTimestamps := by
  rcases hfind : findDateIdx t.date s.maxValuesTimestamps with _ | i
  · have hnone : ∀ ts ∈ s.maxValuesTimestamps, matchesDate t.date ts = false :=
      (findDateIdx_none_iff _ _).mp hfind
    by_cases hch :
        ¬ (sort_and_slice_combined N
            ((s.maxValues ++ [v]).zip (s.maxValuesTimestamps ++ [some t]))).1 = s.maxValues
    · simp only [update_daily_max_values_with_timestamp, hfind, if_pos hch]
      exact nodupDates_sort_slice _ _
        (pairwise_snd_of_zip _ _ (by simp [hlen])
          (nodupDates_append_singleton _ t h hnone))
    · simp only [update_daily_max_values_with_timestamp, hfind, if_neg hch]
      exact h
  · obtain ⟨u, hu, hud⟩ := findDateIdx_some_inv _ _ i hfind
    by_cases hle : v ≤ s.maxValues.getD i 0
    · simp only [update_daily_max_values_with_timestamp, hfind, if_pos hle]
      exact h
    · simp only [update_daily_max_values_with_timestamp, hfind, if_neg hle]
      exact nodupDates_sort_slice _ _
        (pairwise_snd_of_zip _ _ (by simp [hlen])
          (nodupDates_set _ i u t h hu hud))

/-- C4: in ONE_PER_DAY mode, when some populated slot already carries the
offered timestamp's calendar date, the offer is rejected with no mutation
unless the value is strictly greater than that slot's value, in which case
exactly that slot's (value, timestamp) pair is overwritten and the pairs are
re-sorted descending by value; and after any sequence of offers from a fresh
ledger, at most one populated slot carries any given calendar date
(coordinator.py:426-481). -/
theorem C4_one_per_day_semantics (N : Nat) :
    (∀ (s : CoordState) (v : ℚ) (t : DateTime) (i : Nat) (u : DateTime) (w : ℚ),
      s.maxValues.length = s.maxValuesTimestamps.length →
      s.maxValues.length ≤ N →
      NodupDates s.maxValuesTimestamps →
      s.maxValuesTimestamps[i]? = some (some u) →
      u.date = t.date →
      s.maxValues[i]? = some w →
      ((v ≤ w → update_daily_max_values_with_timestamp N s v t = (s, false)) ∧
        (w < v →
          (update_daily_max_values_with_timestamp N s v t).2 = true ∧
          ((update_daily_max_values_with_timestamp N s v t).1.maxValues.zip
              (update_daily_max_values_with_timestamp N s v t).1.maxValuesTimestamps).Perm
            ((s.maxValues.zip s.maxValuesTimestamps).set i (v, some t)) ∧
          (update_daily_max_values_with_timestamp N s v t).1.maxValues.Pairwise
            (fun a b => b ≤ a)))) ∧
    (∀ offers : List (ℚ × DateTime),
      NodupDates ((offers.foldl
          (fun s p => (update_daily_max_values_with_timestamp N s p.1 p.2).1)
          (initState N)).maxValuesTimestamps)) := by
  constructor
  · intro s v t i u w hlen hcap hnd hi hud hw
    have hilt := (List.getElem?_eq_some_iff.mp hi).1
    have hfind : findDateIdx t.date s.maxValuesTimestamps = some i := by
      refine findDateIdx_some_of t.date s.maxValuesTimestamps i u hi hud ?_
      intro j x hj hx
      cases x with
      | none => rfl
      | some x' =>
          have hjlt := (List.getElem?_eq_some_iff.mp hx).1
          have hpair := (List.pairwise_iff_getElem.mp hnd) j i hjlt hilt hj
          rw [(List.getElem?_eq_some_iff.mp hx).2, (List.getElem?_eq_some_iff.mp hi).2]
            at hpair
          simp only [matchesDate, decide_eq_false_iff_not]
          exact fun e => hpair (e.trans hud.symm)
    have hgetD : s.maxValues.getD i 0 = w := by
      rw [List.getD_eq_getElem?_getD, hw]
      rfl
    constructor
    · intro hle
      simp only [update_daily_max_values_with_timestamp, hfind, hgetD, if_pos hle]
    · intro hlt
      have hcond : ¬ v ≤ s.maxValues.getD i 0 := by
        rw [hgetD]; exact not_le.mpr hlt
      refine ⟨?_, ?_, ?_⟩
      · simp only [update_daily_max_values_with_timestamp, hfind, if_neg hcond]
      · simp only [update_daily_max_values_with_timestamp, hfind, if_neg hcond]
        have hzlen :
            ((s.maxValues.set i v).zip
              (s.maxValuesTimestamps.set i (some t))).length = s.maxValues.length := by
          simp [List.length_zip, hlen]
        have htake :
            (sortPairsDesc ((s.maxValues.set i v).zip
                (s.maxValuesTimestamps.set i (some t)))).take N =
              sortPairsDesc ((s.maxValues.set i v).zip
                (s.maxValuesTimestamps.set i (some t))) := by
          apply List.take_of_length_le
          rw [length_sortPairsDesc, hzlen]
          exact hcap
        simp only [sort_and_slice_combined]
        rw [zip_map_fst_snd, htake]
        rw [zip_set s.maxValues s.maxValuesTimestamps i v (some t) hlen]
        exact sortPairsDesc_perm _
      · simp only [update_daily_max_values_with_timestamp, hfind, if_neg hcond]
        exact sort_and_slice_combined_fst_pairwise _ _
  · intro offers
    have main : ∀ (l : List (ℚ × DateTime)) (s : CoordState),
        s.maxValues.length = s.maxValuesTimestamps.length →
        NodupDates s.maxValuesTimestamps →
        (l.foldl (fun s p => (update_daily_max_values_with_timestamp N s p.1 p.2).1)
            s).maxValues.length =
          (l.foldl (fun s p => (update_daily_max_values_with_timestamp N s p.1 p.2).1)
            s).maxValuesTimestamps.length ∧
        NodupDates ((l.foldl
            (fun s p => (update_daily_max_values_with_timestamp N s p.1 p.2).1)
            s).maxValuesTimestamps) := by
      intro l
      induction l with
      | nil => intro s h1 h2; exact ⟨h1, h2⟩
      | cons p rest ih =>
          intro s h1 h2
          refine ih _ ?_ (nodupDates_update_daily N s p.1 p.2 h1 h2)
          rcases hfind : findDateIdx p.2.date s.maxValuesTimestamps with _ | i
          · by_cases hch :
                ¬ (sort_and_slice_combined N
                    ((s.maxValues ++ [p.1]).zip
                      (s.maxValuesTimestamps ++ [some p.2]))).1 = s.maxValues
            · simp only [update_daily_max_values_with_timestamp, hfind, if_pos hch]
              rw [sort_and_slice_combined_fst_length, sort_and_slice_combined_snd_length]
            · simp only [update_daily_max_values_with_timestamp, hfind, if_neg hch]
              exact h1
          · by_cases hle : p.1 ≤ s.maxValues.getD i 0
            · simp only [update_daily_max_values_with_timestamp, hfind, if_pos hle]
              exact h1
            · simp only [update_daily_max_values_with_timestamp, hfind, if_neg hle]
              rw [sort_and_slice_combined_fst_length, sort_and_slice_combined_snd_length]
    exact (main offers (initState N) (by simp [initState])
      (by simp [initState, NodupDates, List.pairwise_replicate, dateDistinct])).2

/-- C4 witness: a two-slot ledger holding 5.0 for Dec 9 accepts 7.0 later the
same day by overwriting that slot. -/
theorem C4_witness :
    (update_daily_max_values_with_timestamp 2
        ⟨[5, 0], [some ⟨2025, 12, 9, 10, 0, 0⟩, none], []⟩ 7 ⟨2025, 12, 9, 14, 0, 0⟩).2
        = true ∧
    ((update_daily_max_values_with_timestamp 2
        ⟨[5, 0], [some ⟨2025, 12, 9, 10, 0, 0⟩, none], []⟩ 7
        ⟨2025, 12, 9, 14, 0, 0⟩).1.maxValues.zip
      (update_daily_max_values_with_timestamp 2
        ⟨[5, 0], [some ⟨2025, 12, 9, 10, 0, 0⟩, none], []⟩ 7
        ⟨2025, 12, 9, 14, 0, 0⟩).1.maxValuesTimestamps).Perm
      ((([5, 0] : List ℚ).zip
          [some (⟨2025, 12, 9, 10, 0, 0⟩ : DateTime), none]).set 0
        (7, some ⟨2025, 12, 9, 14, 0, 0⟩)) ∧
    (update_daily_max_values_with_timestamp 2
        ⟨[5, 0], [some ⟨2025, 12, 9, 10, 0, 0⟩, none], []⟩ 7
        ⟨2025, 12, 9, 14, 0, 0⟩).1.maxValues.Pairwise (fun a b => b ≤ a) :=
  ((C4_one_per_day_semantics 2).1
      ⟨[5, 0], [some ⟨2025, 12, 9, 10, 0, 0⟩, none], []⟩ 7 ⟨2025, 12, 9, 14, 0, 0⟩ 0
      ⟨2025, 12, 9, 10, 0, 0⟩ 5 rfl (by decide) (by decide) (by decide) (by decide)
      (by decide)).2 (by norm_num)

/-! ## C8: persistence round trip -/

theorem digitChar_facts : ∀ d < 10, (digitChar d).toNat = 48 + d ∧
    (digitChar d).isDigit = true := by decide

theorem digitVal_digitChar {d : Nat} (h : d < 10) : digitVal (digitChar d) = d := by
  have := (digitChar_facts d h).1
  simp [digitVal, this]

theorem isDigit_digitChar {d : Nat} (h : d < 10) : (digitChar d).isDigit = true :=
  (digitChar_facts d h).2

theorem parse_datetime_isoformat (t : DateTime) (hv : ValidDT t) :
    parse_datetime (DateTime.isoformat t) = some t := by
  obtain ⟨hy, hm, hd, hh, hmi, hs⟩ := hv
  have b1 : t.year / 1000 < 10 := by omega
  have b2 : t.year / 100 % 10 < 10 := Nat.mod_lt _ (by norm_num)
  have b3 : t.year / 10 % 10 < 10 := Nat.mod_lt _ (by norm_num)
  have b4 : t.year % 10 < 10 := Nat.mod_lt _ (by norm_num)
  have c1 : t.month / 10 < 10 := by omega
  have c2 : t.month % 10 < 10 := Nat.mod_lt _ (by norm_num)
  have d1 : t.day / 10 < 10 := by omega
  have d2 : t.day % 10 < 10 := Nat.mod_lt _ (by norm_num)
  have e1 : t.hour / 10 < 10 := by omega
  have e2 : t.hour % 10 < 10 := Nat.mod_lt _ (by norm_num)
  have f1 : t.minute / 10 < 10 := by omega
  have f2 : t.minute % 10 < 10 := Nat.mod_lt _ (by norm_num)
  have g1 : t.second / 10 < 10 := by omega
  have g2 : t.second % 10 < 10 := Nat.mod_lt _ (by norm_num)
  show parse_datetime
      ⟨[digitChar (t.year / 1000), digitChar (t.year / 100 % 10),
        digitChar (t.year / 10 % 10), digitChar (t.year % 10), '-',
        digitChar (t.month / 10), digitChar (t.month % 10), '-',
        digitChar (t.day / 10), digitChar (t.day % 10), 'T',
        digitChar (t.hour / 10), digitChar (t.hour % 10), ':',
        digitChar (t.minute / 10), digitChar (t.minute % 10), ':',
        digitChar (t.second / 10), digitChar (t.second % 10)]⟩ = some t
  rw [parse_datetime]
  dsimp only
  rw [if_pos]
  · simp only [Option.some_inj]
    have hy4 : val4 (digitChar (t.year / 1000)) (digitChar (t.year / 100 % 10))
        (digitChar (t.year / 10 % 10)) (digitChar (t.year % 10)) = t.year := by
      simp only [val4, digitVal_digitChar b1, digitVal_digitChar b2,
        digitVal_digitChar b3, digitVal_digitChar b4]
      omega
    have hmo : val2 (digitChar (t.month / 10)) (digitChar (t.month % 10)) = t.month := by
      simp only [val2, digitVal_digitChar c1, digitVal_digitChar c2]
      omega
    have hda : val2 (digitChar (t.day / 10)) (digitChar (t.day % 10)) = t.day := by
      simp only [val2, digitVal_digitChar d1, digitVal_digitChar d2]
      omega
    have hho : val2 (digitChar (t.hour / 10)) (digitChar (t.hour % 10)) = t.hour := by
      simp only [val2, digitVal_digitChar e1, digitVal_digitChar e2]
      omega
    have hmin : val2 (digitChar (t.minute / 10)) (digitChar (t.minute % 10))
        = t.minute := by
      simp only [val2, digitVal_digitChar f1, digitVal_digitChar f2]
      omega
    have hsec : val2 (digitChar (t.second / 10)) (digitChar (t.second % 10))
        = t.second := by
      simp only [val2, digitVal_digitChar g1, digitVal_digitChar g2]
      omega
    rw [hy4, hmo, hda, hho, hmin, hsec]
  · refine ⟨⟨rfl, rfl, rfl, rfl, rfl⟩, ?_⟩
    simp only [List.all_cons, List.all_nil, Bool.and_eq_true,
      isDigit_digitChar b1, isDigit_digitChar b2, isDigit_digitChar b3,
      isDigit_digitChar b4, isDigit_digitChar c1, isDigit_digitChar c2,
      isDigit_digitChar d1, isDigit_digitChar d2, isDigit_digitChar e1,
      isDigit_digitChar e2, isDigit_digitChar f1, isDigit_digitChar f2,
      isDigit_digitChar g1, isDigit_digitChar g2, and_self]

/-- C8: deserializing the record produced by serializing the coordinator state
reproduces identical values and timestamps (None slots preserved) and the same
previous-month snapshot, for any mode and any base state at load time
(coordinator.py:243-256 and 288-295). -/
theorem C8_save_load_roundtrip (base s : CoordState)
    (h : ∀ ts ∈ s.maxValuesTimestamps, ∀ u : DateTime, ts = some u → ValidDT u) :
    load_stored_data base (some (save_max_values_data s)) = s := by
  cases s with
  | mk mv mt pm =>
      simp only [load_stored_data, save_max_values_data, List.map_map]
      congr 1
      have hslots : ∀ ts ∈ mt,
          ((fun ts : Option String => ts.bind parse_datetime) ∘
            Option.map DateTime.isoformat) ts = id ts := by
        intro ts hts
        cases ts with
        | none => rfl
        | some u =>
            have hu : ValidDT u := h (some u) hts u rfl
            simp [Function.comp, parse_datetime_isoformat u hu]
      rw [List.map_congr_left hslots, List.map_id]

/-- C8 witness: a populated two-slot ledger with one `None` slot and a
previous-month snapshot survives the save/load round trip. -/
theorem C8_witness :
    load_stored_data (initState 2)
        (some (save_max_values_data
          ⟨[5, 3], [some ⟨2023, 1, 1, 12, 0, 0⟩, none], [4, 2]⟩)) =
      ⟨[5, 3], [some ⟨2023, 1, 1, 12, 0, 0⟩, none], [4, 2]⟩ := by
  refine C8_save_load_roundtrip (initState 2)
    ⟨[5, 3], [some ⟨2023, 1, 1, 12, 0, 0⟩, none], [4, 2]⟩ ?_
  intro ts hts u htu
  simp only [List.mem_cons, List.not_mem_nil, or_false] at hts
  rcases hts with h | h <;> subst h
  · simp only [Option.some_inj] at htu
    subst htu
    decide
  · simp at htu

end PowerMaxTracker
